import Mathlib

/-!
Verification of the danmaku-analysis crawler (B站 danmaku scraper).

Shallow embedding of:
  - src/danmaku_analysis/models.py   (VideoMetadata, DanmakuRecord, VideoDanmakuBundle)
  - src/danmaku_analysis/persistence.py (dump_bundle / load_bundle)
  - src/danmaku_analysis/crawler.py  (BilibiliCrawler: crawl, _search_keyword,
    _collect_video_bundle, _bounded_collect_video_bundle, _request)

Modelling conventions:
  - Python floats are modelled as exact rationals (Rat); every numeric literal
    appearing in the claims (12.5, 1.5, ...) is exactly representable in binary64,
    so the model agrees with the code on all inputs the claims exercise.
  - A Python "datetime" (always timezone-aware UTC in this code base) is modelled
    by its epoch offset in microseconds (the stdlib resolution): "DateTime := Int".
    The stdlib pair isoformat/fromisoformat is modelled by an injective decimal
    string encoding with the same contract (mutually inverse on aware datetimes,
    and isoformat never returns an empty - hence never a falsy - string).
  - JSON documents are a "Json" inductive; "json.dumps"/"json.loads" are the
    identity on that representation (the stdlib JSON round trip is lossless for
    the values this code writes).
  - Raised exceptions are modelled with "Except PyExc"; Python dynamic typing of
    non-conforming payloads is modelled as a load/parse failure.
-/

/-- Characters used by the decimal encoding of integers. -/
def digitChar (d : Nat) : Char :=
  match d with
  | 0 => '0' | 1 => '1' | 2 => '2' | 3 => '3' | 4 => '4'
  | 5 => '5' | 6 => '6' | 7 => '7' | 8 => '8' | 9 => '9'
  | _ => '*'

/-- Inverse digit lookup; 10 marks a non-digit character. -/
def charDigit (c : Char) : Nat :=
  match c with
  | '0' => 0 | '1' => 1 | '2' => 2 | '3' => 3 | '4' => 4
  | '5' => 5 | '6' => 6 | '7' => 7 | '8' => 8 | '9' => 9
  | _ => 10

theorem charDigit_digitChar : ∀ d < 10, charDigit (digitChar d) = d := by decide

theorem charDigit_digitChar_lt : ∀ d < 10, charDigit (digitChar d) < 10 := by decide

/-- Decimal rendering of a natural number (most significant digit first). -/
def natToDecimal (n : Nat) : List Char :=
  if n = 0 then ['0'] else ((Nat.digits 10 n).map digitChar).reverse

/-- Parse a nonempty all-digit character list as a natural number. -/
def decimalToNat (l : List Char) : Nat :=
  Nat.ofDigits 10 ((l.map charDigit).reverse)

theorem decimalToNat_natToDecimal (n : Nat) : decimalToNat (natToDecimal n) = n := by
  unfold natToDecimal decimalToNat
  by_cases h : n = 0
  · simp [h, Nat.ofDigits]
    decide
  · simp only [h, if_false, List.map_reverse, List.reverse_reverse, List.map_map]
    have hmap : (Nat.digits 10 n).map (charDigit ∘ digitChar) = Nat.digits 10 n := by
      have h1 : (Nat.digits 10 n).map (charDigit ∘ digitChar) = (Nat.digits 10 n).map id :=
        List.map_congr_left
          (fun d hd => charDigit_digitChar d (Nat.digits_lt_base (by norm_num) hd))
      simpa using h1
    rw [hmap, Nat.ofDigits_digits]

theorem natToDecimal_all_digits (n : Nat) :
    ∀ c ∈ natToDecimal n, charDigit c < 10 := by
  intro c hc
  unfold natToDecimal at hc
  by_cases h : n = 0
  · simp [h] at hc
    simp [hc, charDigit]
  · simp only [h, if_false, List.mem_reverse, List.mem_map] at hc
    obtain ⟨d, hd, rfl⟩ := hc
    exact charDigit_digitChar_lt d (Nat.digits_lt_base (by norm_num) hd)

theorem natToDecimal_ne_nil (n : Nat) : natToDecimal n ≠ [] := by
  unfold natToDecimal
  by_cases h : n = 0
  · simp [h]
  · simp only [h, if_false, ne_eq, List.reverse_eq_nil_iff, List.map_eq_nil_iff]
    exact Nat.digits_ne_nil_iff_ne_zero.2 h

/-- Decimal rendering of an integer, with a leading minus sign when negative. -/
def intToDecimal (t : Int) : List Char :=
  if t < 0 then '-' :: natToDecimal t.natAbs else natToDecimal t.natAbs

/-- Parse an optionally minus-signed all-digit character list as an integer;
none on any malformed input (models a raised ValueError). -/
def decimalToInt (l : List Char) : Option Int :=
  match l with
  | [] => none
  | c :: rest =>
      if c = '-' then
        if rest ≠ [] ∧ rest.all (fun d => charDigit d < 10) then
          some (-(decimalToNat rest : Int))
        else none
      else
        if (c :: rest).all (fun d => charDigit d < 10) then
          some ((decimalToNat (c :: rest) : Nat) : Int)
        else none

theorem natToDecimal_head_digit (n : Nat) :
    ∀ c ∈ natToDecimal n, c ≠ '-' := by
  intro c hc
  have h := natToDecimal_all_digits n c hc
  intro hcontra
  rw [hcontra] at h
  simp [charDigit] at h

theorem decimalToInt_intToDecimal (t : Int) : decimalToInt (intToDecimal t) = some t := by
  have hne : natToDecimal t.natAbs ≠ [] := natToDecimal_ne_nil _
  have hall : (natToDecimal t.natAbs).all (fun d => charDigit d < 10) = true := by
    rw [List.all_eq_true]
    intro c hc
    simp [natToDecimal_all_digits t.natAbs c hc]
  unfold intToDecimal
  by_cases h : t < 0
  · simp only [h, if_true]
    unfold decimalToInt
    dsimp only
    rw [if_pos rfl, if_pos ⟨hne, hall⟩, decimalToNat_natToDecimal]
    congr 1
    omega
  · simp only [h, if_false]
    cases hl : natToDecimal t.natAbs with
    | nil => exact absurd hl hne
    | cons c rest =>
        have hcne : c ≠ '-' :=
          natToDecimal_head_digit t.natAbs c (by rw [hl]; exact List.mem_cons_self _ _)
        rw [hl] at hall
        unfold decimalToInt
        dsimp only
        rw [if_neg hcne, if_pos hall, ← hl, decimalToNat_natToDecimal]
        congr 1
        omega

/-- Model of an aware UTC "datetime": its offset from the epoch in microseconds
(the stdlib resolution). The stdlib pair isoformat / fromisoformat is modelled
below by an injective decimal encoding with the same inverse contract. -/
abbrev DateTime := Int

/-- Model of "datetime.isoformat" (stdlib collaborator): an injective rendering
of the datetime as a never-empty string. -/
def isoformat (t : DateTime) : String :=
  ⟨intToDecimal t⟩

/-- Model of "datetime.fromisoformat" (stdlib collaborator): inverts isoformat,
none models the ValueError raised on a malformed string. -/
def fromisoformat (s : String) : Option DateTime :=
  decimalToInt s.data

theorem fromisoformat_isoformat (t : DateTime) : fromisoformat (isoformat t) = some t :=
  decimalToInt_intToDecimal t

theorem isoformat_ne_empty (t : DateTime) : isoformat t ≠ "" := by
  unfold isoformat intToDecimal
  by_cases h : t < 0
  · simp only [h, if_true]
    intro hc
    have : ('-' :: natToDecimal t.natAbs) = ([] : List Char) := congrArg String.data hc
    simp at this
  · simp only [h, if_false]
    intro hc
    exact natToDecimal_ne_nil t.natAbs (congrArg String.data hc)

/-- Model of models.py "_parse_timestamp": datetime.fromtimestamp(seconds, utc),
i.e. epoch seconds (a float, modelled as Rat) to a DateTime at microsecond
resolution. -/
def parse_timestamp (seconds : Rat) : DateTime :=
  round (seconds * 1000000)

/-- JSON documents as read and written by json.loads / json.dumps. -/
inductive Json where
  | null : Json
  | int (n : Int) : Json
  | rat (q : Rat) : Json
  | str (s : String) : Json
  | arr (xs : List Json) : Json
  | obj (fields : List (String × Json)) : Json

/-- Python dict subscript / dict.get on a JSON object: none when the key is
missing (or the value is not an object). -/
def Json.get? : Json → String → Option Json
  | .obj fields, k => fields.lookup k
  | _, _ => none

/-- Python truthiness of a JSON value. -/
def Json.truthy : Json → Bool
  | .null => false
  | .int n => n != 0
  | .rat q => q != 0
  | .str s => s != ""
  | .arr xs => !xs.isEmpty
  | .obj fields => !fields.isEmpty

def Json.asInt? : Json → Option Int
  | .int n => some n
  | _ => none

def Json.asStr? : Json → Option String
  | .str s => some s
  | _ => none

def Json.asRat? : Json → Option Rat
  | .rat q => some q
  | _ => none

/-- Model of models.py "VideoMetadata". -/
structure VideoMetadata where
  aid : Int
  bvid : String
  cid : Int
  title : String
  keyword : String
  duration : Option Int
  publish_time : Option DateTime
  owner_name : Option String
  view_count : Option Int
  danmaku_count : Option Int
  like_count : Option Int
  ranking_index : Option Int
deriving DecidableEq

/-- Model of models.py "DanmakuRecord". Python floats are modelled as Rat. -/
structure DanmakuRecord where
  video_bvid : String
  video_cid : Int
  content : String
  appear_time : Rat
  send_time : DateTime
  mode : Int
  font_size : Int
  font_color : Int
  author_hash : Option String
  weight : Option Int
  pool : Option Int
deriving DecidableEq

/-- Model of models.py "VideoDanmakuBundle". -/
structure VideoDanmakuBundle where
  video : VideoMetadata
  danmaku : List DanmakuRecord
deriving DecidableEq

/-- Serialize an optional integer the way to_dict does (None becomes null). -/
def optIntJson : Option Int → Json
  | none => .null
  | some n => .int n

def optStrJson : Option String → Json
  | none => .null
  | some s => .str s

/-- Serialization of the publish_time field: "x.isoformat() if x else None"
(an aware datetime is always truthy in Python). -/
def optTimeJson : Option DateTime → Json
  | none => .null
  | some t => .str (isoformat t)

/-- Per-record dictionary built by VideoDanmakuBundle.to_dict (models.py). -/
def DanmakuRecord.to_dict (r : DanmakuRecord) : Json :=
  .obj
    [ ("video_bvid", .str r.video_bvid)
    , ("video_cid", .int r.video_cid)
    , ("content", .str r.content)
    , ("appear_time", .rat r.appear_time)
    , ("send_time", .str (isoformat r.send_time))
    , ("mode", .int r.mode)
    , ("font_size", .int r.font_size)
    , ("font_color", .int r.font_color)
    , ("author_hash", optStrJson r.author_hash)
    , ("weight", optIntJson r.weight)
    , ("pool", optIntJson r.pool) ]

/-- Video sub-dictionary built inline by VideoDanmakuBundle.to_dict. -/
def VideoMetadata.to_dict (v : VideoMetadata) : Json :=
  .obj
    [ ("aid", .int v.aid)
    , ("bvid", .str v.bvid)
    , ("cid", .int v.cid)
    , ("title", .str v.title)
    , ("keyword", .str v.keyword)
    , ("duration", optIntJson v.duration)
    , ("publish_time", optTimeJson v.publish_time)
    , ("owner_name", optStrJson v.owner_name)
    , ("view_count", optIntJson v.view_count)
    , ("danmaku_count", optIntJson v.danmaku_count)
    , ("like_count", optIntJson v.like_count)
    , ("ranking_index", optIntJson v.ranking_index) ]

/-- Model of models.py "VideoDanmakuBundle.to_dict". -/
def VideoDanmakuBundle.to_dict (b : VideoDanmakuBundle) : Json :=
  .obj
    [ ("video", b.video.to_dict)
    , ("danmaku", .arr (b.danmaku.map DanmakuRecord.to_dict)) ]

/-- Read an optional integer field through dict.get: a missing key or null is
None; a non-integer value is a non-conforming payload (Python would silently
store the ill-typed value; the model marks it as a decode failure). -/
def Json.decodeOptInt : Option Json → Option (Option Int)
  | none => some none
  | some .null => some none
  | some (.int n) => some (some n)
  | some _ => none

def Json.decodeOptStr : Option Json → Option (Option String)
  | none => some none
  | some .null => some none
  | some (.str s) => some (some s)
  | some _ => none

/-- Read the publish_time field the way from_dict does:
"datetime.fromisoformat(video[k]) if video.get(k) else None". A falsy value
yields None; a truthy non-string raises (modelled none); a truthy string goes
through fromisoformat. -/
def Json.decodeOptTime : Option Json → Option (Option DateTime)
  | none => some none
  | some v =>
      if v.truthy then
        match v with
        | .str s => (fromisoformat s).map some
        | _ => none
      else some none

/-- Per-record decoding performed by VideoDanmakuBundle.from_dict (models.py):
mandatory fields are direct subscripts (KeyError on absence is modelled none),
author_hash / weight / pool go through dict.get. -/
def DanmakuRecord.from_dict (item : Json) : Option DanmakuRecord := do
  let vb ← item.get? "video_bvid" >>= Json.asStr?
  let vc ← item.get? "video_cid" >>= Json.asInt?
  let ct ← item.get? "content" >>= Json.asStr?
  let ap ← item.get? "appear_time" >>= Json.asRat?
  let stStr ← item.get? "send_time" >>= Json.asStr?
  let st ← fromisoformat stStr
  let md ← item.get? "mode" >>= Json.asInt?
  let fs ← item.get? "font_size" >>= Json.asInt?
  let fc ← item.get? "font_color" >>= Json.asInt?
  let ah ← Json.decodeOptStr (item.get? "author_hash")
  let wt ← Json.decodeOptInt (item.get? "weight")
  let pl ← Json.decodeOptInt (item.get? "pool")
  pure ⟨vb, vc, ct, ap, st, md, fs, fc, ah, wt, pl⟩

/-- Metadata decoding performed by VideoDanmakuBundle.from_dict (models.py):
aid / bvid / cid / title / keyword are direct subscripts, the optional fields
go through dict.get, publish_time through the truthiness-guarded
fromisoformat. -/
def VideoMetadata.from_dict (video : Json) : Option VideoMetadata := do
  let aid ← video.get? "aid" >>= Json.asInt?
  let bvid ← video.get? "bvid" >>= Json.asStr?
  let cid ← video.get? "cid" >>= Json.asInt?
  let title ← video.get? "title" >>= Json.asStr?
  let keyword ← video.get? "keyword" >>= Json.asStr?
  let dur ← Json.decodeOptInt (video.get? "duration")
  let pt ← Json.decodeOptTime (video.get? "publish_time")
  let ow ← Json.decodeOptStr (video.get? "owner_name")
  let vc ← Json.decodeOptInt (video.get? "view_count")
  let dc ← Json.decodeOptInt (video.get? "danmaku_count")
  let lc ← Json.decodeOptInt (video.get? "like_count")
  let ri ← Json.decodeOptInt (video.get? "ranking_index")
  pure ⟨aid, bvid, cid, title, keyword, dur, pt, ow, vc, dc, lc, ri⟩

/-- Model of models.py "VideoDanmakuBundle.from_dict". none models a raised
exception (KeyError / ValueError) or a non-conforming payload. -/
def VideoDanmakuBundle.from_dict (payload : Json) : Option VideoDanmakuBundle := do
  let video ← payload.get? "video"
  let danmakuList ← match payload.get? "danmaku" with
    | none => some ([] : List Json)
    | some (.arr xs) => some xs
    | some _ => none
  let metadata ← VideoMetadata.from_dict video
  let records ← danmakuList.mapM DanmakuRecord.from_dict
  pure ⟨metadata, records⟩

/-- Model of persistence.py "dump_bundle": the JSON document written to
bundle_path(raw_dir, bundle.video.bvid); json.dumps is lossless on this
representation. -/
def dump_bundle (b : VideoDanmakuBundle) : Json :=
  b.to_dict

/-- Model of persistence.py "load_bundle": json.loads then from_dict. -/
def load_bundle (doc : Json) : Option VideoDanmakuBundle :=
  VideoDanmakuBundle.from_dict doc

theorem decodeOptInt_optIntJson (o : Option Int) :
    Json.decodeOptInt (some (optIntJson o)) = some o := by
  cases o <;> rfl

theorem decodeOptStr_optStrJson (o : Option String) :
    Json.decodeOptStr (some (optStrJson o)) = some o := by
  cases o <;> rfl

theorem decodeOptTime_optTimeJson (o : Option DateTime) :
    Json.decodeOptTime (some (optTimeJson o)) = some o := by
  cases o with
  | none => rfl
  | some t =>
      have ht : (Json.str (isoformat t)).truthy = true := by
        simp [Json.truthy, isoformat_ne_empty t]
      dsimp only [optTimeJson, Json.decodeOptTime]
      rw [if_pos ht]
      simp [fromisoformat_isoformat]

theorem record_from_to_dict (r : DanmakuRecord) :
    DanmakuRecord.from_dict r.to_dict = some r := by
  obtain ⟨vb, vc, ct, ap, st, md, fs, fc, ah, wt, pl⟩ := r
  simp only [DanmakuRecord.to_dict, DanmakuRecord.from_dict, Json.get?, List.lookup]
  simp [Json.asStr?, Json.asInt?, Json.asRat?, fromisoformat_isoformat,
    decodeOptStr_optStrJson, decodeOptInt_optIntJson]

theorem mapM_record_roundtrip (l : List DanmakuRecord) :
    (l.map DanmakuRecord.to_dict).mapM DanmakuRecord.from_dict = some l := by
  induction l with
  | nil => rfl
  | cons r rest ih =>
      rw [List.map_cons, List.mapM_cons, record_from_to_dict, ih]
      rfl

/-- C1: serializing any VideoDanmakuBundle with to_dict / dump_bundle and
deserializing with from_dict / load_bundle yields the bundle back
field-for-field, including the None sentinels of every optional field
(duration, publish_time, owner_name, view_count, danmaku_count, like_count,
ranking_index, author_hash, weight, pool) and the order and contents of the
danmaku list. -/
theorem bundle_serialization_roundtrip (b : VideoDanmakuBundle) :
    VideoDanmakuBundle.from_dict b.to_dict = some b ∧
      load_bundle (dump_bundle b) = some b := by
  have hmeta : VideoMetadata.from_dict b.video.to_dict = some b.video := by
    obtain ⟨aid, bvid, cid, title, keyword, dur, pt, ow, vc, dc, lc, ri⟩ := b.video
    simp only [VideoMetadata.to_dict, VideoMetadata.from_dict, Json.get?, List.lookup]
    simp [Json.asInt?, Json.asStr?, decodeOptInt_optIntJson, decodeOptStr_optStrJson,
      decodeOptTime_optTimeJson]
  have h : VideoDanmakuBundle.from_dict b.to_dict = some b := by
    simp only [VideoDanmakuBundle.to_dict, VideoDanmakuBundle.from_dict,
      Json.get?, List.lookup]
    have hrec := mapM_record_roundtrip b.danmaku
    simp only [List.mapM] at hrec
    simp [hmeta, hrec]
  exact ⟨h, h⟩

/-- Python exceptions relevant to the crawler. valueError carries the message;
httpStatusError models httpx.HTTPStatusError (4xx/5xx raised by
raise_for_status); transportError models every other httpx failure
(connect/timeout); xmlParseError models ElementTree.ParseError. -/
inductive PyExc where
  | valueError (msg : String)
  | keyError (key : String)
  | typeError
  | httpStatusError (status : Nat)
  | transportError
  | xmlParseError
deriving DecidableEq

/-- Lift an optional value into Except, raising the given exception on none. -/
def orRaise (o : Option α) (e : PyExc) : Except PyExc α :=
  match o with
  | some a => .ok a
  | none => .error e

/-- Parse an unsigned decimal float literal (digits, optional dot, digits). -/
def parseUnsignedFloat (l : List Char) : Option Rat :=
  let intPart := l.takeWhile (fun c => charDigit c < 10)
  let rest := l.dropWhile (fun c => charDigit c < 10)
  match rest with
  | [] => if intPart.isEmpty then none else some (decimalToNat intPart : Rat)
  | c :: frac =>
      if c = '.' then
        if intPart.isEmpty && frac.isEmpty then none
        else if frac.all (fun d => charDigit d < 10) then
          some ((decimalToNat intPart : Rat) + (decimalToNat frac : Rat) / (10 : Rat) ^ frac.length)
        else none
      else none

/-- Model of the Python float(str) constructor on the decimal literals this
crawler meets (sign, digits, optional fraction); none models ValueError.
Every such literal is parsed exactly (the claims only involve values that are
exactly representable in binary64). -/
def pyFloat (s : String) : Option Rat :=
  match s.data with
  | [] => parseUnsignedFloat []
  | c :: rest =>
      if c = '+' then parseUnsignedFloat rest
      else if c = '-' then (parseUnsignedFloat rest).map (fun q => -q)
      else parseUnsignedFloat (c :: rest)

/-- Model of the Python int(str) constructor on optionally minus-signed decimal
literals; none models ValueError. -/
def pyInt (s : String) : Option Int :=
  decimalToInt s.data

/-- Model of models.py "_safe_int": a lenient parse yielding None instead of
raising on non-numeric input. -/
def safe_int (s : String) : Option Int :=
  pyInt s

/-- Splitting a character list at every occurrence of the separator (the
semantics of the Python str.split(sep) for a one-character separator:
an empty string yields one empty field, n separators yield n+1 fields). -/
def pySplitChars (sep : Char) : List Char → List (List Char)
  | [] => [[]]
  | c :: rest =>
      match pySplitChars sep rest with
      | [] => [[]]
      | cur :: others => if c = sep then [] :: cur :: others else (c :: cur) :: others

/-- Model of the Python str.split(sep) for a one-character separator. -/
def pySplit (s : String) (sep : Char) : List String :=
  (pySplitChars sep s.data).map String.mk

/-- One d-node of the danmaku XML document: its p attribute and text body. -/
structure XmlNode where
  p : Option String
  text : Option String
deriving DecidableEq

/-- Model of models.py "DanmakuRecord.from_xml_node". The p attribute is split
on commas; fewer than 7 fields raises ValueError "Unexpected danmaku payload"
(the spec's MalformedRecord); fields 0-4 are parsed strictly, the empty author
hash becomes None, pool and weight go through the lenient _safe_int, the text
body defaults to the empty string. -/
def DanmakuRecord.from_xml_node (node : XmlNode) (bvid : String) (cid : Int) :
    Except PyExc DanmakuRecord :=
  let attrs := pySplit (node.p.getD "") ','
  if attrs.length < 7 then
    .error (.valueError "Unexpected danmaku payload")
  else do
    let appear_time ← orRaise (pyFloat (attrs.getD 0 "")) (.valueError "invalid float literal")
    let mode ← orRaise (pyInt (attrs.getD 1 "")) (.valueError "invalid int literal")
    let font_size ← orRaise (pyInt (attrs.getD 2 "")) (.valueError "invalid int literal")
    let font_color ← orRaise (pyInt (attrs.getD 3 "")) (.valueError "invalid int literal")
    let send_ts ← orRaise (pyFloat (attrs.getD 4 "")) (.valueError "invalid float literal")
    let author_hash := if attrs.getD 5 "" = "" then none else some (attrs.getD 5 "")
    let pool := safe_int (attrs.getD 6 "")
    let weight := if attrs.length > 7 then safe_int (attrs.getD 7 "") else none
    .ok ⟨bvid, cid, node.text.getD "", appear_time, parse_timestamp send_ts,
      mode, font_size, font_color, author_hash, weight, pool⟩

/-- Numeric JSON value as a Rat (Python would accept int or float here). -/
def Json.asNum? : Json → Option Rat
  | .int n => some (n : Rat)
  | .rat q => some q
  | _ => none

/-- Model of the Python int(x) coercion on JSON values (int stays, float
truncates toward zero, strings are parsed); none models ValueError/TypeError. -/
def pyIntCoerce : Json → Option Int
  | .int n => some n
  | .rat q => some (q.num.tdiv (q.den : Int))
  | .str s => pyInt s
  | _ => none

/-- Model of the Python str(x) coercion (total; only strings occur in the
payloads the claims exercise). -/
def pyStr : Json → String
  | .str s => s
  | .int n => ⟨intToDecimal n⟩
  | .null => "None"
  | .rat _ => "<float>"
  | .arr _ => "<list>"
  | .obj _ => "<dict>"

/-- dict.get(k) for a field stored as a string; missing, null or ill-typed
values become None (Python would store an ill-typed value as-is; such payloads
do not occur in the claims). -/
def Json.getStrField (j : Json) (k : String) : Option String :=
  match j.get? k with
  | some (.str s) => some s
  | _ => none

def Json.getIntField (j : Json) (k : String) : Option Int :=
  match j.get? k with
  | some (.int n) => some n
  | _ => none

/-- Model of models.py "VideoMetadata.from_view_api": stat and owner sections
default to empty dicts when missing or falsy, a falsy pubdate (0 or missing)
yields an absent publish time, aid and bvid are mandatory subscripts, a zero
duration is normalized to absent. -/
def VideoMetadata.from_view_api (payload : Json) (keyword : String) (cid : Int)
    (ranking_index : Option Int) : Except PyExc VideoMetadata := do
  let stat := match payload.get? "stat" with
    | some v => if v.truthy then v else Json.obj []
    | none => Json.obj []
  let owner := match payload.get? "owner" with
    | some v => if v.truthy then v else Json.obj []
    | none => Json.obj []
  let publish_time ← match payload.get? "pubdate" with
    | some v =>
        if v.truthy then
          match v.asNum? with
          | some q => Except.ok (some (parse_timestamp q))
          | none => Except.error PyExc.typeError
        else Except.ok (none : Option DateTime)
    | none => Except.ok (none : Option DateTime)
  let aidJ ← orRaise (payload.get? "aid") (.keyError "aid")
  let aid ← orRaise (pyIntCoerce aidJ) (.valueError "invalid int literal")
  let bvidJ ← orRaise (payload.get? "bvid") (.keyError "bvid")
  let bvid := pyStr bvidJ
  let title := pyStr ((payload.get? "title").getD (.str ""))
  let durRaw := match payload.get? "duration" with
    | some v => if v.truthy then v else Json.int 0
    | none => Json.int 0
  let dur ← orRaise (pyIntCoerce durRaw) (.valueError "invalid int literal")
  let duration := if dur = 0 then none else some dur
  .ok ⟨aid, bvid, cid, title, keyword, duration, publish_time,
    owner.getStrField "name", stat.getIntField "view",
    stat.getIntField "danmaku", stat.getIntField "like", ranking_index⟩

/-- C6: a raw comment payload whose attribute string splits into fewer than 7
comma-separated fields always fails with the MalformedRecord error (the
ValueError "Unexpected danmaku payload") and never produces a DanmakuRecord. -/
theorem malformed_comment_payload_raises (node : XmlNode) (bvid : String) (cid : Int)
    (h : (pySplit (node.p.getD "") ',').length < 7) :
    DanmakuRecord.from_xml_node node bvid cid =
      .error (.valueError "Unexpected danmaku payload") := by
  unfold DanmakuRecord.from_xml_node
  rw [if_pos h]

/-- Witness for C6 at the concrete payload "1,2,3": three fields, parsing
fails with MalformedRecord. -/
theorem malformed_comment_payload_raises_witness :
    (pySplit ((XmlNode.mk (some "1,2,3") none).p.getD "") ',').length < 7 ∧
      DanmakuRecord.from_xml_node ⟨some "1,2,3", none⟩ "BV1" 7 =
        .error (.valueError "Unexpected danmaku payload") :=
  ⟨by decide, malformed_comment_payload_raises ⟨some "1,2,3", none⟩ "BV1" 7 (by decide)⟩

/-- C8: the scenario payload "12.5,1,25,16777215,1700000000,abcd1234,0,5" with
text "hello" parses to the expected record; the send time 1700000000 epoch
seconds (2023-11-14T22:13:20Z) is 1700000000000000 in the microsecond model. -/
theorem comment_parsing_scenario :
    DanmakuRecord.from_xml_node
        ⟨some "12.5,1,25,16777215,1700000000,abcd1234,0,5", some "hello"⟩ "BVtest" 99 =
      .ok ⟨"BVtest", 99, "hello", (12.5 : Rat), (1700000000000000 : Int),
        1, 25, 16777215, some "abcd1234", some 5, some 0⟩ := by
  have hstep : DanmakuRecord.from_xml_node
      ⟨some "12.5,1,25,16777215,1700000000,abcd1234,0,5", some "hello"⟩ "BVtest" 99 =
      .ok ⟨"BVtest", 99, "hello", (12 : Rat) + (5 : Rat) / (10 : Rat) ^ 1,
        parse_timestamp (1700000000 : Rat), 1, 25, 16777215,
        some "abcd1234", some 5, some 0⟩ := rfl
  rw [hstep]
  norm_num [parse_timestamp]

/-- One search-result item as consumed by crawl; only its "bvid" field is
inspected by the scheduling loop (a missing key is none; the empty string is
the falsy non-missing case). -/
structure SearchItem where
  bvid : Option String
deriving DecidableEq

/-- One unit of work appended to the tasks list by crawl (crawler.py lines
46-63): the search item together with the keyword that discovered it and the
ranking index assigned at discovery. -/
structure ScheduledTask where
  item : SearchItem
  keyword : String
  ranking_index : Nat
deriving DecidableEq

/-- Inner loop of crawl over one keyword's search results: skip falsy or
already-seen bvids, otherwise record the bvid as seen, increment the ranking
index and append a task. Returns (tasks, seen, ranking_index) after the
keyword is processed. -/
def scheduleItems (kw : String) (items : List SearchItem) (seen : List String)
    (rank : Nat) : List ScheduledTask × List String × Nat :=
  match items with
  | [] => ([], seen, rank)
  | item :: rest =>
      match item.bvid with
      | none => scheduleItems kw rest seen rank
      | some b =>
          if b = "" ∨ b ∈ seen then scheduleItems kw rest seen rank
          else
            let r := scheduleItems kw rest (b :: seen) (rank + 1)
            (⟨item, kw, rank + 1⟩ :: r.1, r.2.1, r.2.2)

/-- Outer loop of crawl: keywords in configuration order, each with its search
results, sharing one seen-set and one ranking counter. -/
def scheduleGo (searches : List (String × List SearchItem)) (seen : List String)
    (rank : Nat) : List ScheduledTask :=
  match searches with
  | [] => []
  | (kw, items) :: rest =>
      let r := scheduleItems kw items seen rank
      r.1 ++ scheduleGo rest r.2.1 r.2.2

/-- The full task-scheduling phase of crawl: empty seen-set, ranking counter
starting at 0 (the first discovered video gets index 1). -/
def scheduleTasks (searches : List (String × List SearchItem)) : List ScheduledTask :=
  scheduleGo searches [] 0

/-- A keyword's result list discovers a bvid when some item carries it. -/
def discovers (items : List SearchItem) (b : String) : Bool :=
  items.any (fun it => it.bvid == some b)

/-- The first keyword (in configuration order) whose results carry the bvid. -/
def firstDiscoverer : List (String × List SearchItem) → String → Option String
  | [], _ => none
  | (kw, items) :: rest, b =>
      if discovers items b then some kw else firstDiscoverer rest b

theorem scheduleItems_seen_mono (kw : String) (items : List SearchItem)
    (seen : List String) (rank : Nat) :
    ∀ x ∈ seen, x ∈ (scheduleItems kw items seen rank).2.1 := by
  induction items generalizing seen rank with
  | nil => intro x hx; simpa [scheduleItems] using hx
  | cons item rest ih =>
      intro x hx
      cases hb : item.bvid with
      | none => simpa [scheduleItems, hb] using ih seen rank x hx
      | some b =>
          by_cases hskip : b = "" ∨ b ∈ seen
          · simpa [scheduleItems, hb, hskip] using ih seen rank x hx
          · simpa [scheduleItems, hb, hskip] using
              ih (b :: seen) (rank + 1) x (List.mem_cons_of_mem _ hx)


theorem discovers_cons (item : SearchItem) (rest : List SearchItem) (b : String) :
    discovers (item :: rest) b = (item.bvid == some b || discovers rest b) := rfl

theorem scheduleItems_seen_complete (kw : String) (items : List SearchItem)
    (b : String) (hb : b ≠ "") :
    ∀ seen rank, discovers items b = true →
      b ∈ (scheduleItems kw items seen rank).2.1 := by
  induction items with
  | nil => intro seen rank hdisc; simp [discovers] at hdisc
  | cons item rest ih =>
      intro seen rank hdisc
      rw [discovers_cons, Bool.or_eq_true] at hdisc
      cases hitem : item.bvid with
      | none =>
          simp only [scheduleItems, hitem]
          rcases hdisc with h1 | h2
          · rw [hitem] at h1; simp at h1
          · exact ih seen rank h2
      | some c =>
          by_cases hcb : c = b
          · subst hcb
            by_cases hskip : c = "" ∨ c ∈ seen
            · rcases hskip with h | h
              · exact absurd h hb
              · simp only [scheduleItems, hitem, if_pos (Or.inr h)]
                exact scheduleItems_seen_mono kw rest seen rank c h
            · simp only [scheduleItems, hitem, if_neg hskip]
              exact scheduleItems_seen_mono kw rest (c :: seen) (rank + 1) c
                (List.mem_cons_self _ _)
          · have h2 : discovers rest b = true := by
              rcases hdisc with h1 | h2
              · rw [hitem] at h1
                simp at h1
                exact absurd h1 hcb
              · exact h2
            by_cases hskip : c = "" ∨ c ∈ seen
            · simp only [scheduleItems, hitem, if_pos hskip]
              exact ih seen rank h2
            · simp only [scheduleItems, hitem, if_neg hskip]
              exact ih (c :: seen) (rank + 1) h2

theorem scheduleItems_tasks (kw : String) (items : List SearchItem) :
    ∀ seen rank, ∀ t ∈ (scheduleItems kw items seen rank).1,
      t.keyword = kw ∧ ∃ b, t.item.bvid = some b ∧ b ≠ "" ∧ b ∉ seen ∧
        discovers items b = true ∧ b ∈ (scheduleItems kw items seen rank).2.1 := by
  induction items with
  | nil => intro seen rank t ht; simp [scheduleItems] at ht
  | cons item rest ih =>
      intro seen rank t ht
      cases hitem : item.bvid with
      | none =>
          simp only [scheduleItems, hitem] at ht ⊢
          obtain ⟨hkw, b, h1, h2, h3, h4, h5⟩ := ih seen rank t ht
          refine ⟨hkw, b, h1, h2, h3, ?_, h5⟩
          rw [discovers_cons, h4]
          simp
      | some c =>
          by_cases hskip : c = "" ∨ c ∈ seen
          · simp only [scheduleItems, hitem, if_pos hskip] at ht ⊢
            obtain ⟨hkw, b, h1, h2, h3, h4, h5⟩ := ih seen rank t ht
            refine ⟨hkw, b, h1, h2, h3, ?_, h5⟩
            rw [discovers_cons, h4]
            simp
          · simp only [scheduleItems, hitem, if_neg hskip] at ht ⊢
            push_neg at hskip
            rcases List.mem_cons.1 ht with rfl | htail
            · refine ⟨rfl, c, hitem, hskip.1, hskip.2, ?_, ?_⟩
              · rw [discovers_cons, hitem]
                simp
              · exact scheduleItems_seen_mono kw rest (c :: seen) (rank + 1) c
                  (List.mem_cons_self _ _)
            · obtain ⟨hkw, b, h1, h2, h3, h4, h5⟩ := ih (c :: seen) (rank + 1) t htail
              have hbseen : b ∉ seen := fun hmem => h3 (List.mem_cons_of_mem _ hmem)
              refine ⟨hkw, b, h1, h2, hbseen, ?_, h5⟩
              rw [discovers_cons, h4]
              simp

theorem scheduleItems_rank_len (kw : String) (items : List SearchItem) :
    ∀ seen rank, (scheduleItems kw items seen rank).2.2 =
      rank + (scheduleItems kw items seen rank).1.length := by
  induction items with
  | nil => intro seen rank; simp [scheduleItems]
  | cons item rest ih =>
      intro seen rank
      cases hitem : item.bvid with
      | none =>
          simp only [scheduleItems, hitem]
          exact ih seen rank
      | some c =>
          by_cases hskip : c = "" ∨ c ∈ seen
          · simp only [scheduleItems, hitem, if_pos hskip]
            exact ih seen rank
          · simp only [scheduleItems, hitem, if_neg hskip, List.length_cons]
            rw [ih (c :: seen) (rank + 1)]
            omega

theorem scheduleItems_ranks (kw : String) (items : List SearchItem) :
    ∀ seen rank, (scheduleItems kw items seen rank).1.map ScheduledTask.ranking_index =
      List.range' (rank + 1) (scheduleItems kw items seen rank).1.length := by
  induction items with
  | nil => intro seen rank; simp [scheduleItems]
  | cons item rest ih =>
      intro seen rank
      cases hitem : item.bvid with
      | none =>
          simp only [scheduleItems, hitem]
          exact ih seen rank
      | some c =>
          by_cases hskip : c = "" ∨ c ∈ seen
          · simp only [scheduleItems, hitem, if_pos hskip]
            exact ih seen rank
          · simp only [scheduleItems, hitem, if_neg hskip, List.map_cons, List.length_cons]
            rw [ih (c :: seen) (rank + 1), List.range'_succ]

theorem scheduleItems_bvid_nodup (kw : String) (items : List SearchItem) :
    ∀ seen rank, ((scheduleItems kw items seen rank).1.map
      (fun t => t.item.bvid)).Nodup := by
  induction items with
  | nil => intro seen rank; simp [scheduleItems]
  | cons item rest ih =>
      intro seen rank
      cases hitem : item.bvid with
      | none =>
          simp only [scheduleItems, hitem]
          exact ih seen rank
      | some c =>
          by_cases hskip : c = "" ∨ c ∈ seen
          · simp only [scheduleItems, hitem, if_pos hskip]
            exact ih seen rank
          · simp only [scheduleItems, hitem, if_neg hskip, List.map_cons]
            rw [List.nodup_cons]
            refine ⟨?_, ih (c :: seen) (rank + 1)⟩
            intro hmem
            rw [List.mem_map] at hmem
            obtain ⟨t, htmem, hteq⟩ := hmem
            obtain ⟨_, b, h1, h2, h3, h4, h5⟩ :=
              scheduleItems_tasks kw rest (c :: seen) (rank + 1) t htmem
            rw [h1] at hteq
            have hbc : b = c := by simpa using hteq
            exact h3 (hbc ▸ List.mem_cons_self c seen)

theorem scheduleGo_spec (searches : List (String × List SearchItem)) :
    ∀ seen rank,
      (∀ t ∈ scheduleGo searches seen rank, ∃ b, t.item.bvid = some b ∧ b ≠ "" ∧
        b ∉ seen ∧ firstDiscoverer searches b = some t.keyword) ∧
      ((scheduleGo searches seen rank).map (fun t => t.item.bvid)).Nodup ∧
      (scheduleGo searches seen rank).map ScheduledTask.ranking_index =
        List.range' (rank + 1) (scheduleGo searches seen rank).length := by
  induction searches with
  | nil => intro seen rank; simp [scheduleGo]
  | cons pair rest ih =>
      intro seen rank
      obtain ⟨kw, items⟩ := pair
      simp only [scheduleGo]
      obtain ⟨ihAttr, ihNodup, ihRanks⟩ :=
        ih (scheduleItems kw items seen rank).2.1 (scheduleItems kw items seen rank).2.2
      refine ⟨?_, ?_, ?_⟩
      · intro t ht
        rcases List.mem_append.1 ht with h1 | h2
        · obtain ⟨hkw, b, hb1, hb2, hb3, hb4, _⟩ :=
            scheduleItems_tasks kw items seen rank t h1
          refine ⟨b, hb1, hb2, hb3, ?_⟩
          rw [firstDiscoverer, if_pos hb4, hkw]
        · obtain ⟨b, hb1, hb2, hb3, hb4⟩ := ihAttr t h2
          have hnotdisc : ¬ discovers items b = true := fun hdisc =>
            hb3 (scheduleItems_seen_complete kw items b hb2 seen rank hdisc)
          have hbseen : b ∉ seen := fun hmem =>
            hb3 (scheduleItems_seen_mono kw items seen rank b hmem)
          refine ⟨b, hb1, hb2, hbseen, ?_⟩
          rw [firstDiscoverer, if_neg hnotdisc, hb4]
      · rw [List.map_append]
        refine List.Nodup.append (scheduleItems_bvid_nodup kw items seen rank)
          ihNodup ?_
        intro x hx1 hx2
        rw [List.mem_map] at hx1 hx2
        obtain ⟨t1, ht1, heq1⟩ := hx1
        obtain ⟨t2, ht2, heq2⟩ := hx2
        obtain ⟨_, b1, hb1, _, _, _, hb1mem⟩ :=
          scheduleItems_tasks kw items seen rank t1 ht1
        obtain ⟨b2, hb2, _, hb2notin, _⟩ := ihAttr t2 ht2
        rw [← heq1, hb1] at heq2
        rw [hb2] at heq2
        have : b2 = b1 := by simpa using heq2
        exact hb2notin (this ▸ hb1mem)
      · rw [List.map_append, List.length_append]
        rw [scheduleItems_ranks kw items seen rank, ihRanks,
          scheduleItems_rank_len kw items seen rank]
        have h := List.range'_append_1 (rank + 1)
          (scheduleItems kw items seen rank).1.length
          (scheduleGo rest (scheduleItems kw items seen rank).2.1
            (rank + (scheduleItems kw items seen rank).1.length)).length
        have e1 : rank + (scheduleItems kw items seen rank).1.length + 1 =
            rank + 1 + (scheduleItems kw items seen rank).1.length := by omega
        have e2 : (scheduleItems kw items seen rank).1.length +
            (scheduleGo rest (scheduleItems kw items seen rank).2.1
              (rank + (scheduleItems kw items seen rank).1.length)).length =
            (scheduleGo rest (scheduleItems kw items seen rank).2.1
              (rank + (scheduleItems kw items seen rank).1.length)).length +
            (scheduleItems kw items seen rank).1.length := Nat.add_comm _ _
        rw [e1, e2]
        exact h

/-- C2: for every sequence of keyword searches, crawl schedules at most one
fetch unit per distinct bvid (the scheduled bvids are pairwise distinct),
assigns ranking indices 1, 2, ..., n in discovery order across all keywords
(each index exactly once, strictly increasing), and attributes each video to
the first keyword whose results discovered its bvid. -/
theorem crawl_dedup_rank_attribution (searches : List (String × List SearchItem)) :
    ((scheduleTasks searches).map (fun t => t.item.bvid)).Nodup ∧
      (scheduleTasks searches).map ScheduledTask.ranking_index =
        List.range' 1 (scheduleTasks searches).length ∧
      ∀ t ∈ scheduleTasks searches, ∃ b, t.item.bvid = some b ∧
        firstDiscoverer searches b = some t.keyword := by
  obtain ⟨hAttr, hNodup, hRanks⟩ := scheduleGo_spec searches [] 0
  refine ⟨hNodup, hRanks, fun t ht => ?_⟩
  obtain ⟨b, hb1, _, _, hb4⟩ := hAttr t ht
  exact ⟨b, hb1, hb4⟩

/-- Witness for C2: two keywords both surfacing bvid A; the schedule contains
exactly one task for A, attributed to the first keyword k1, with ranks 1, 2. -/
theorem crawl_dedup_rank_attribution_witness :
    scheduleTasks [("k1", [⟨some "A"⟩]), ("k2", [⟨some "A"⟩, ⟨some "B"⟩])] =
        [⟨⟨some "A"⟩, "k1", 1⟩, ⟨⟨some "B"⟩, "k2", 2⟩] ∧
      ∃ b, (⟨⟨some "A"⟩, "k1", 1⟩ : ScheduledTask).item.bvid = some b ∧
        firstDiscoverer [("k1", [⟨some "A"⟩]), ("k2", [⟨some "A"⟩, ⟨some "B"⟩])] b =
          some "k1" := by
  refine ⟨by decide, ?_⟩
  have h := crawl_dedup_rank_attribution
    [("k1", [⟨some "A"⟩]), ("k2", [⟨some "A"⟩, ⟨some "B"⟩])]
  exact h.2.2 ⟨⟨some "A"⟩, "k1", 1⟩ (by decide)

/-- Model of crawler.py "_request" (the retry loop). The loop state is the
attempts counter (0 before the first attempt). Each iteration performs the
pacing sleep, then one HTTP attempt whose outcome is given by the oracle
(attempt k is outcomes k); on success the response is returned; on failure
attempts becomes a + 1, and if attempts >= retry_attempts the exception is
re-raised, otherwise the loop sleeps 1.5 * attempts seconds and retries.
Returns (total attempts performed, backoff sleeps performed in order, final
outcome); the pacing sleeps (sleep_interval before every attempt) are not part
of the backoff list. -/
def requestGo (outcomes : Nat → Except PyExc R) (retry : Nat) (a : Nat) :
    Nat × List Rat × Except PyExc R :=
  match outcomes a with
  | .ok r => (a + 1, [], .ok r)
  | .error e =>
      if h : a + 1 ≥ retry then (a + 1, [], .error e)
      else
        let r2 := requestGo outcomes retry (a + 1)
        (r2.1, (3 / 2 : Rat) * ((a + 1 : Nat) : Rat) :: r2.2.1, r2.2.2)
termination_by retry - a
decreasing_by simp_wf; omega

/-- The full _request call: attempts counter starts at 0. -/
def requestRun (outcomes : Nat → Except PyExc R) (retry : Nat) :
    Nat × List Rat × Except PyExc R :=
  requestGo outcomes retry 0

theorem requestGo_all_fail (e : Nat → PyExc) (outcomes : Nat → Except PyExc R)
    (hout : ∀ k, outcomes k = .error (e k)) (retry : Nat) :
    ∀ d a, retry - a = d → a < retry →
      requestGo outcomes retry a =
        (retry, (List.range' (a + 1) (retry - 1 - a)).map
          (fun k : Nat => (3 / 2 : Rat) * ((k : Nat) : Rat)), .error (e (retry - 1))) := by
  intro d
  induction d with
  | zero => intro a h1 h2; omega
  | succ d ihd =>
      intro a h1 h2
      rw [requestGo, hout a]
      dsimp only
      by_cases hlast : a + 1 ≥ retry
      · have hra : retry = a + 1 := by omega
        subst hra
        rw [dif_pos hlast]
        simp
      · have hrec := ihd (a + 1) (by omega) (by omega)
        simp only [dif_neg hlast, hrec]
        have hn : retry - 1 - a = (retry - 1 - (a + 1)) + 1 := by omega
        rw [hn, List.range'_succ]
        simp

/-- C4: a fetch client configured with retry_attempts = N (N at least 1) whose
every HTTP attempt fails makes exactly N attempts, waits 1.5 * k seconds after
the k-th failed attempt for each k < N (the backoff list is
[1.5 * 1, ..., 1.5 * (N - 1)], excluding the pacing delay), and after the N-th
failure re-raises the last failure rather than returning. -/
theorem request_retry_exhaustion {R : Type} (N : Nat) (hN : 1 ≤ N) (e : Nat → PyExc)
    (outcomes : Nat → Except PyExc R) (hout : ∀ k, outcomes k = .error (e k)) :
    requestRun outcomes N =
      (N, (List.range' 1 (N - 1)).map
        (fun k : Nat => (3 / 2 : Rat) * ((k : Nat) : Rat)), .error (e (N - 1))) := by
  have h := requestGo_all_fail e outcomes hout N (N - 0) 0 rfl (by omega)
  simpa using h

/-- Witness for C4 at N = 3: exactly 3 attempts, backoffs 1.5 and 3.0 seconds
(total 4.5), and the transport failure is re-raised. -/
theorem request_retry_exhaustion_witness :
    1 ≤ 3 ∧
      requestRun (fun _ => (Except.error PyExc.transportError : Except PyExc Unit)) 3 =
        (3, [(3 / 2 : Rat), 3], Except.error PyExc.transportError) ∧
      [(3 / 2 : Rat), 3].sum = 9 / 2 := by
  refine ⟨by norm_num, ?_, by norm_num⟩
  have h := @request_retry_exhaustion Unit 3 (by norm_num) (fun _ => PyExc.transportError)
    (fun _ => Except.error PyExc.transportError) (fun k => rfl)
  rw [h]
  norm_num [List.range']

/-- One outbound network request issued by a per-video unit. -/
inductive NetCall where
  | view (bvid : String)
  | danmakuList (cid : Int)
deriving DecidableEq

/-- Environment of one crawl run: the outcome of the view-API JSON request per
bvid (the result of _request_json after its internal retries), the outcome of
_fetch_danmaku per cid (downloaded and XML-parsed d-nodes, or the exception),
and the persisted cache document per bvid (none when bundle_path(raw_dir,
bvid) does not exist). -/
structure CrawlEnv where
  view : String → Except PyExc Json
  danmaku : Int → Except PyExc (List XmlNode)
  cache : String → Option Json

/-- Crawler configuration knobs consumed by the embedded fragments
(config.py CrawlerConfig). -/
structure CrawlerConfig where
  max_videos : Nat
  pages_per_keyword : Option Nat
  concurrent_requests : Int
  retry_attempts : Nat
  enable_cache : Bool
deriving DecidableEq

/-- Model of crawler.py "_collect_video_bundle" for a single search item.
Returns the unit outcome paired with the network calls it issued:
ok none models "return None" (the unit contributes nothing), ok (some b)
a produced bundle, error an exception escaping the unit (only
httpx.HTTPStatusError is caught inside, around the view fetch - giving
"return None" - and around the danmaku fetch - degrading to zero comments;
every other exception propagates). A cache hit with caching enabled returns
load_bundle of the cached document without touching the network. The
persistence write on success is not part of the returned value. -/
def collect_video_bundle (cfg : CrawlerConfig) (env : CrawlEnv)
    (search_item : SearchItem) (keyword : String) (ranking_index : Nat) :
    Except PyExc (Option VideoDanmakuBundle) × List NetCall :=
  match search_item.bvid with
  | none => (.ok none, [])
  | some bvid =>
    if bvid = "" then (.ok none, [])
    else if cfg.enable_cache ∧ (env.cache bvid).isSome then
      match load_bundle ((env.cache bvid).getD .null) with
      | some b => (.ok (some b), [])
      | none => (.error (.valueError "malformed cache document"), [])
    else
      match env.view bvid with
      | .error (.httpStatusError _) => (.ok none, [NetCall.view bvid])
      | .error e => (.error e, [NetCall.view bvid])
      | .ok payload =>
          let data := (payload.get? "data").getD .null
          if data.truthy = false then (.ok none, [NetCall.view bvid])
          else
            match data.get? "cid" with
            | none => (.ok none, [NetCall.view bvid])
            | some .null => (.ok none, [NetCall.view bvid])
            | some cidJ =>
                match pyIntCoerce cidJ with
                | none => (.error (.valueError "invalid int literal"), [NetCall.view bvid])
                | some cid =>
                    match VideoMetadata.from_view_api data keyword cid
                        (some (ranking_index : Int)) with
                    | .error e => (.error e, [NetCall.view bvid])
                    | .ok metadata =>
                        let dmOutcome : Except PyExc (List XmlNode) :=
                          match env.danmaku cid with
                          | .error (.httpStatusError _) => .ok []
                          | r => r
                        match dmOutcome with
                        | .error e =>
                            (.error e, [NetCall.view bvid, NetCall.danmakuList cid])
                        | .ok nodes =>
                            match nodes.mapM (fun node =>
                                DanmakuRecord.from_xml_node node metadata.bvid
                                  metadata.cid) with
                            | .error e =>
                                (.error e, [NetCall.view bvid, NetCall.danmakuList cid])
                            | .ok records =>
                                (.ok (some ⟨metadata, records⟩),
                                  [NetCall.view bvid, NetCall.danmakuList cid])

/-- Model of crawl after the search phase: schedule the tasks, run every unit
(the semaphore shapes timing, not results), await them - an exception escaping
a unit re-raises at the "await coro" in crawl and aborts the run - and keep the
truthy (non-None) bundles. Output order is modelled as submission order; the
real orchestrator appends in completion order, and no claim depends on it. -/
def crawl_run (cfg : CrawlerConfig) (env : CrawlEnv)
    (searches : List (String × List SearchItem)) :
    Except PyExc (List VideoDanmakuBundle) := do
  let results ← (scheduleTasks searches).mapM
    (fun t => (collect_video_bundle cfg env t.item t.keyword t.ranking_index).1)
  pure (results.filterMap id)

/-- C5: with caching enabled and a pre-existing persisted bundle document for
a bvid, the per-video unit performs no network call for that id and returns
exactly the bundle reconstructed from storage (load_bundle of the cached
document). -/
theorem cache_short_circuit (cfg : CrawlerConfig) (env : CrawlEnv)
    (item : SearchItem) (kw : String) (rank : Nat) (b : String) (doc : Json)
    (hb : item.bvid = some b) (hbne : b ≠ "") (hcache : cfg.enable_cache = true)
    (hdoc : env.cache b = some doc) :
    (collect_video_bundle cfg env item kw rank).2 = [] ∧
      ∀ bu, load_bundle doc = some bu →
        (collect_video_bundle cfg env item kw rank).1 = .ok (some bu) := by
  have hsome : (env.cache b).isSome = true := by rw [hdoc]; rfl
  have hcl : collect_video_bundle cfg env item kw rank =
      match load_bundle doc with
      | some bu => (.ok (some bu), [])
      | none => (.error (.valueError "malformed cache document"), []) := by
    simp only [collect_video_bundle, hb]
    rw [if_neg hbne, if_pos ⟨hcache, hsome⟩, hdoc]
    rfl
  constructor
  · rw [hcl]
    cases load_bundle doc <;> rfl
  · intro bu hbu
    rw [hcl, hbu]

/-- Cache document used by the C5 witness. -/
def docC5 : Json :=
  Json.obj
    [ ("video", Json.obj
        [ ("aid", .int 1), ("bvid", .str "BV"), ("cid", .int 2)
        , ("title", .str "t"), ("keyword", .str "k"), ("duration", .null)
        , ("publish_time", .null), ("owner_name", .null), ("view_count", .null)
        , ("danmaku_count", .null), ("like_count", .null), ("ranking_index", .null) ])
    , ("danmaku", .arr []) ]

/-- Bundle reconstructed from docC5. -/
def bundleC5 : VideoDanmakuBundle :=
  ⟨⟨1, "BV", 2, "t", "k", none, none, none, none, none, none, none⟩, []⟩

/-- Environment for the C5 witness: the network always fails, the cache holds
docC5 for bvid BV. -/
def envC5 : CrawlEnv :=
  ⟨fun _ => .error .transportError, fun _ => .ok [],
    fun s => if s = "BV" then some docC5 else none⟩

def cfgC5 : CrawlerConfig := ⟨360, none, 2, 3, true⟩

/-- Witness for C5: concrete cache hit, zero network calls, the exact stored
bundle returned. -/
theorem cache_short_circuit_witness :
    (collect_video_bundle cfgC5 envC5 ⟨some "BV"⟩ "k" 1).2 = [] ∧
      (collect_video_bundle cfgC5 envC5 ⟨some "BV"⟩ "k" 1).1 = .ok (some bundleC5) := by
  have h := cache_short_circuit cfgC5 envC5 ⟨some "BV"⟩ "k" 1 "BV" docC5 rfl
    (by decide) rfl rfl
  exact ⟨h.1, h.2 bundleC5 (by decide)⟩

instance {ε α : Type} [DecidableEq ε] [DecidableEq α] : DecidableEq (Except ε α) :=
  fun x y =>
    match x, y with
    | .ok a, .ok b =>
        if h : a = b then .isTrue (congrArg Except.ok h)
        else .isFalse (fun hc => h (Except.ok.inj hc))
    | .error e, .error f =>
        if h : e = f then .isTrue (congrArg Except.error h)
        else .isFalse (fun hc => h (Except.error.inj hc))
    | .ok _, .error _ => .isFalse (fun hc => Except.noConfusion hc)
    | .error _, .ok _ => .isFalse (fun hc => Except.noConfusion hc)

theorem exceptMapM_ok {α β : Type} (f : α → Except PyExc β) (l : List α)
    (h : ∀ x ∈ l, ∃ y, f x = .ok y) : ∃ ys, l.mapM f = .ok ys := by
  induction l with
  | nil => exact ⟨[], rfl⟩
  | cons a rest ih =>
      obtain ⟨y, hy⟩ := h a (List.mem_cons_self _ _)
      obtain ⟨ys, hys⟩ := ih (fun x hx => h x (List.mem_cons_of_mem _ hx))
      refine ⟨y :: ys, ?_⟩
      rw [List.mapM_cons, hy, hys]
      rfl

/-- Environment for the C3 counterexample: the view request for B1 exhausts
its retries with a transport-level failure (not an HTTP-status failure), B2
resolves normally, the comment stream is empty, the cache is empty. -/
def envC3 : CrawlEnv :=
  ⟨fun b =>
      if b = "B2" then
        .ok (Json.obj [("data", Json.obj
          [("aid", .int 1), ("bvid", .str "B2"), ("cid", .int 5)])])
      else .error .transportError,
    fun _ => .ok [],
    fun _ => none⟩

def cfgC3 : CrawlerConfig := ⟨360, none, 2, 3, false⟩

/-- Counterexample to C3 as stated: a per-video transport failure (an
exception that is not an HTTPStatusError) escaping the info lookup of B1 is
not caught at the unit boundary, so the whole crawl aborts with it - the
sibling unit B2, which would have produced a bundle, is lost. -/
theorem per_video_failure_aborts_crawl :
    crawl_run cfgC3 envC3 [("k", [⟨some "B1"⟩, ⟨some "B2"⟩])] =
      .error PyExc.transportError ∧
    (collect_video_bundle cfgC3 envC3 ⟨some "B2"⟩ "k" 2).1 =
      .ok (some ⟨⟨1, "B2", 5, "", "k", none, none, none, none, none, none, some 2⟩, []⟩) := by
  constructor <;> rfl

/-- C3 amended: only HTTP-status failures are tolerated per video. An
info-lookup failure surfaced as an HTTPStatusError terminates only that
video's unit (the unit yields None); a comment-fetch HTTPStatusError is
tolerated as zero comments (the unit still yields a bundle with an empty
danmaku list); and a crawl whose units all complete without an uncaught
exception returns normally, so such per-unit failures never cancel sibling
units. Any other exception (a transport error exhausting retries, a malformed
comment payload, ...) escapes the unit and aborts the overall crawl, as the
counterexample shows. -/
theorem per_video_http_failure_isolated :
    (∀ (cfg : CrawlerConfig) (env : CrawlEnv) (item : SearchItem) (kw : String)
        (rank : Nat) (b : String) (code : Nat),
      item.bvid = some b → b ≠ "" →
      (cfg.enable_cache = false ∨ env.cache b = none) →
      env.view b = .error (.httpStatusError code) →
      (collect_video_bundle cfg env item kw rank).1 = .ok none) ∧
    (∀ (cfg : CrawlerConfig) (env : CrawlEnv) (item : SearchItem) (kw : String)
        (rank : Nat) (b : String) (payload data : Json) (cid : Int)
        (metadata : VideoMetadata) (code : Nat),
      item.bvid = some b → b ≠ "" →
      (cfg.enable_cache = false ∨ env.cache b = none) →
      env.view b = .ok payload →
      (payload.get? "data").getD .null = data → data.truthy = true →
      data.get? "cid" = some (.int cid) →
      VideoMetadata.from_view_api data kw cid (some (rank : Int)) = .ok metadata →
      env.danmaku cid = .error (.httpStatusError code) →
      (collect_video_bundle cfg env item kw rank).1 = .ok (some ⟨metadata, []⟩)) ∧
    (∀ (cfg : CrawlerConfig) (env : CrawlEnv)
        (searches : List (String × List SearchItem)),
      (∀ t ∈ scheduleTasks searches,
        ∃ r, (collect_video_bundle cfg env t.item t.keyword t.ranking_index).1 = .ok r) →
      ∃ bs, crawl_run cfg env searches = .ok bs) := by
  have hnocache : ∀ (cfg : CrawlerConfig) (env : CrawlEnv) (b : String),
      (cfg.enable_cache = false ∨ env.cache b = none) →
      ¬(cfg.enable_cache = true ∧ (env.cache b).isSome = true) := by
    rintro cfg env b (hc | hc) ⟨h1, h2⟩
    · rw [hc] at h1; exact Bool.false_ne_true h1
    · rw [hc] at h2; exact Bool.false_ne_true h2
  refine ⟨?_, ?_, ?_⟩
  · intro cfg env item kw rank b code hb hbne hcache hview
    simp only [collect_video_bundle, hb]
    rw [if_neg hbne, if_neg (hnocache cfg env b hcache), hview]
  · intro cfg env item kw rank b payload data cid metadata code
      hb hbne hcache hview hdata htruthy hcid hmeta hdm
    simp only [collect_video_bundle, hb]
    rw [if_neg hbne, if_neg (hnocache cfg env b hcache), hview]
    dsimp only
    rw [hdata]
    rw [if_neg (by simp [htruthy])]
    rw [hcid]
    dsimp only [pyIntCoerce]
    rw [hmeta]
    dsimp only
    rw [hdm]
    rfl
  · intro cfg env searches hunits
    obtain ⟨ys, hys⟩ := exceptMapM_ok
      (fun t => (collect_video_bundle cfg env t.item t.keyword t.ranking_index).1)
      (scheduleTasks searches) hunits
    refine ⟨ys.filterMap id, ?_⟩
    unfold crawl_run
    rw [hys]
    rfl

def dataC3 : Json :=
  Json.obj [("aid", .int 1), ("bvid", .str "B2"), ("cid", .int 5)]

def payloadC3 : Json := Json.obj [("data", dataC3)]

def metaC3 : VideoMetadata :=
  ⟨1, "B2", 5, "", "k", none, none, none, none, none, none, some 2⟩

/-- Environment for the C3 amended-theorem witness: B1's info lookup fails
with HTTP 404, B2 resolves, every comment fetch fails with HTTP 412, no
cache. -/
def envC3W : CrawlEnv :=
  ⟨fun b => if b = "B2" then .ok payloadC3 else .error (.httpStatusError 404),
    fun _ => .error (.httpStatusError 412),
    fun _ => none⟩

/-- Witness for the amended C3: the 404 info failure makes unit B1 yield None,
the 412 comment failure leaves B2 with an empty danmaku list, and a crawl
whose single unit fails only that way completes normally. -/
theorem per_video_http_failure_isolated_witness :
    (collect_video_bundle cfgC3 envC3W ⟨some "B1"⟩ "k" 1).1 = .ok none ∧
      (collect_video_bundle cfgC3 envC3W ⟨some "B2"⟩ "k" 2).1 =
        .ok (some ⟨metaC3, []⟩) ∧
      ∃ bs, crawl_run cfgC3 envC3W [("k", [⟨some "B1"⟩])] = .ok bs := by
  have h := per_video_http_failure_isolated
  refine ⟨h.1 cfgC3 envC3W ⟨some "B1"⟩ "k" 1 "B1" 404 rfl (by decide) (Or.inl rfl) rfl,
    h.2.1 cfgC3 envC3W ⟨some "B2"⟩ "k" 2 "B2" payloadC3 dataC3 5 metaC3 412
      rfl (by decide) (Or.inl rfl) rfl rfl rfl rfl (by decide) rfl,
    h.2.2 cfgC3 envC3W [("k", [⟨some "B1"⟩])] ?_⟩
  intro t ht
  have hts : scheduleTasks [("k", [⟨some "B1"⟩])] = [⟨⟨some "B1"⟩, "k", 1⟩] := by decide
  rw [hts] at ht
  have := List.mem_singleton.1 ht
  subst this
  exact ⟨none, rfl⟩

/-- Environment for the C10 counterexample: the search result carries bvid
BV1, but the view payload reports an empty bvid, which from_view_api copies
into the bundle unchecked. -/
def envC10 : CrawlEnv :=
  ⟨fun b =>
      if b = "BV1" then
        .ok (Json.obj [("data", Json.obj
          [("aid", .int 1), ("bvid", .str ""), ("cid", .int 5)])])
      else .error .transportError,
    fun _ => .ok [],
    fun _ => none⟩

def cfgC10 : CrawlerConfig := ⟨360, none, 2, 3, false⟩

/-- Counterexample to the last conjunct of C10 as stated: the crawl output can
contain a bundle whose recorded bvid is empty, because the bundle's bvid comes
from the view payload, not from the (truthy) search bvid. -/
theorem crawl_output_empty_bvid :
    crawl_run cfgC10 envC10 [("k", [⟨some "BV1"⟩])] =
      .ok [⟨⟨1, "", 5, "", "k", none, none, none, none, none, none, some 1⟩, []⟩] ∧
      (⟨⟨1, "", 5, "", "k", none, none, none, none, none, none, some 1⟩, []⟩ :
        VideoDanmakuBundle).video.bvid = "" := by
  constructor <;> rfl

/-- C10 amended: a search item whose bvid is missing or empty is skipped
entirely - every scheduled unit carries a truthy bvid, the ranking indices of
the scheduled units stay contiguous (1, ..., n: skipped items consume no rank
index), and _collect_video_bundle returns None without any network call for
such an item. The bundle's own recorded bvid, however, comes from the view
payload (or the cache document) and is not re-validated against the search
bvid. -/
theorem falsy_bvid_skipped :
    (∀ searches : List (String × List SearchItem),
      ∀ t ∈ scheduleTasks searches, ∃ b, t.item.bvid = some b ∧ b ≠ "") ∧
    (∀ searches : List (String × List SearchItem),
      (scheduleTasks searches).map ScheduledTask.ranking_index =
        List.range' 1 (scheduleTasks searches).length) ∧
    (∀ (cfg : CrawlerConfig) (env : CrawlEnv) (item : SearchItem) (kw : String)
        (rank : Nat), item.bvid = none ∨ item.bvid = some "" →
      collect_video_bundle cfg env item kw rank = (.ok none, [])) := by
  refine ⟨?_, ?_, ?_⟩
  · intro searches t ht
    obtain ⟨b, hb1, hb2, _, _⟩ := (scheduleGo_spec searches [] 0).1 t ht
    exact ⟨b, hb1, hb2⟩
  · intro searches
    exact (scheduleGo_spec searches [] 0).2.2
  · rintro cfg env item kw rank (hb | hb) <;> simp [collect_video_bundle, hb]

/-- Witness for the amended C10: with one falsy-bvid item, one empty-string
item and one real item, only the real item is scheduled, it gets rank 1, and
the falsy item's unit returns None with no network calls. -/
theorem falsy_bvid_skipped_witness :
    (∃ b, (⟨⟨some "X"⟩, "k", 1⟩ : ScheduledTask).item.bvid = some b ∧ b ≠ "") ∧
      (scheduleTasks [("k", [⟨none⟩, ⟨some ""⟩, ⟨some "X"⟩])]).map
        ScheduledTask.ranking_index =
        List.range' 1 (scheduleTasks [("k", [⟨none⟩, ⟨some ""⟩, ⟨some "X"⟩])]).length ∧
      collect_video_bundle cfgC10 envC10 ⟨none⟩ "k" 1 = (.ok none, []) := by
  have h := falsy_bvid_skipped
  refine ⟨h.1 [("k", [⟨none⟩, ⟨some ""⟩, ⟨some "X"⟩])] ⟨⟨some "X"⟩, "k", 1⟩ (by decide),
    h.2.1 [("k", [⟨none⟩, ⟨some ""⟩, ⟨some "X"⟩])],
    h.2.2 cfgC10 envC10 ⟨none⟩ "k" 1 (Or.inl rfl)⟩

/-- Inner for-loop of _search_keyword over one page's items: append items one
at a time, breaking as soon as the accumulated count reaches the per-keyword
share or the global max_videos total. -/
def appendPageItems (perKeyword maxVideos : Nat) :
    List SearchItem → List SearchItem → List SearchItem
  | results, [] => results
  | results, item :: rest =>
      let r := results ++ [item]
      if r.length ≥ perKeyword ∨ r.length ≥ maxVideos then r
      else appendPageItems perKeyword maxVideos r rest

theorem appendPageItems_length_lt (perKeyword maxVideos : Nat) :
    ∀ (results items : List SearchItem), items ≠ [] →
      results.length < (appendPageItems perKeyword maxVideos results items).length := by
  intro results items
  induction items generalizing results with
  | nil => intro h; exact absurd rfl h
  | cons item rest ih =>
      intro _
      simp only [appendPageItems]
      by_cases hc : (results ++ [item]).length ≥ perKeyword ∨
          (results ++ [item]).length ≥ maxVideos
      · rw [if_pos hc]
        simp
      · rw [if_neg hc]
        by_cases hrest : rest = []
        · subst hrest
          simp [appendPageItems]
        · have h := ih (results ++ [item]) hrest
          simp only [List.length_append, List.length_singleton] at h ⊢
          omega

/-- The page-ceiling check performed after "page += 1": Python's
"if self.config.pages_per_keyword and page > self.config.pages_per_keyword:
break" - a missing (None) or zero ceiling is falsy and never stops. -/
def stopPaging (pagesPer : Option Nat) (newPage : Nat) : Bool :=
  match pagesPer with
  | some p => decide (p ≠ 0 ∧ newPage > p)
  | none => false

/-- Model of the while-loop of crawler.py "_search_keyword". State: the
accumulated results and the next page to request. Returns the accumulated
results together with the pages requested, in order. Terminates because a
non-empty page strictly grows the accumulator, which the loop condition
bounds by the per-keyword share. -/
def searchLoop (pages : Nat → List SearchItem) (perKeyword maxVideos : Nat)
    (pagesPer : Option Nat) (results : List SearchItem) (page : Nat) :
    List SearchItem × List Nat :=
  if h : results.length < perKeyword then
    if hi : pages page = [] then (results, [page])
    else
      let results2 := appendPageItems perKeyword maxVideos results (pages page)
      if stopPaging pagesPer (page + 1) then (results2, [page])
      else
        let r := searchLoop pages perKeyword maxVideos pagesPer results2 (page + 1)
        (r.1, page :: r.2)
  else (results, [])
termination_by perKeyword - results.length
decreasing_by
  simp_wf
  have hlt := appendPageItems_length_lt perKeyword maxVideos results (pages page) hi
  omega

/-- Model of crawler.py "_search_keyword": run the pagination loop from page 1
with an empty accumulator and truncate the result to the per-keyword share
(results[:per_keyword]). -/
def search_keyword (pages : Nat → List SearchItem) (perKeyword maxVideos : Nat)
    (pagesPer : Option Nat) : List SearchItem × List Nat :=
  let r := searchLoop pages perKeyword maxVideos pagesPer [] 1
  (r.1.take perKeyword, r.2)

theorem searchLoop_pages_consecutive (pages : Nat → List SearchItem)
    (perKeyword maxVideos : Nat) (pagesPer : Option Nat) :
    ∀ d (results : List SearchItem) (page : Nat), perKeyword - results.length = d →
      (searchLoop pages perKeyword maxVideos pagesPer results page).2 =
        List.range' page
          (searchLoop pages perKeyword maxVideos pagesPer results page).2.length := by
  intro d
  induction d using Nat.strong_induction_on with
  | _ d ih =>
      intro results page hd
      rw [searchLoop]
      by_cases h : results.length < perKeyword
      · rw [dif_pos h]
        by_cases hi : pages page = []
        · rw [dif_pos hi]
          simp [List.range']
        · rw [dif_neg hi]
          dsimp only
          by_cases hs : stopPaging pagesPer (page + 1) = true
          · rw [if_pos hs]
            simp [List.range']
          · rw [if_neg hs]
            have hlt := appendPageItems_length_lt perKeyword maxVideos results
              (pages page) hi
            have hrec := ih (perKeyword -
                (appendPageItems perKeyword maxVideos results (pages page)).length)
              (by omega)
              (appendPageItems perKeyword maxVideos results (pages page))
              (page + 1) rfl
            dsimp only
            rw [hrec]
            simp [List.range'_succ]
      · rw [dif_neg h]
        simp [List.range']

theorem searchLoop_second_page_empty (pages : Nat → List SearchItem)
    (perKeyword maxVideos : Nat) (pagesPer : Option Nat)
    (h1 : pages 1 ≠ []) (h2 : pages 2 = [])
    (hq : (appendPageItems perKeyword maxVideos [] (pages 1)).length < perKeyword)
    (hs : stopPaging pagesPer 2 = false) :
    (searchLoop pages perKeyword maxVideos pagesPer [] 1).2 = [1, 2] := by
  have h0 : ([] : List SearchItem).length < perKeyword := by
    simp only [List.length_nil]
    omega
  rw [searchLoop, dif_pos h0, dif_neg h1]
  dsimp only
  rw [if_neg (by simp [hs])]
  rw [searchLoop, dif_pos hq, dif_pos h2]

theorem searchLoop_share_met (pages : Nat → List SearchItem)
    (perKeyword maxVideos : Nat) (pagesPer : Option Nat)
    (h1 : pages 1 ≠ []) (h0 : 0 < perKeyword)
    (hq : perKeyword ≤ (appendPageItems perKeyword maxVideos [] (pages 1)).length) :
    (searchLoop pages perKeyword maxVideos pagesPer [] 1).2 = [1] := by
  have h0l : ([] : List SearchItem).length < perKeyword := by
    simp only [List.length_nil]
    omega
  rw [searchLoop, dif_pos h0l, dif_neg h1]
  dsimp only
  by_cases hstop : stopPaging pagesPer 2 = true
  · rw [if_pos hstop]
  · rw [if_neg hstop]
    rw [searchLoop, dif_neg (by omega)]

theorem searchLoop_ceiling_hit (pages : Nat → List SearchItem)
    (perKeyword maxVideos : Nat) (pagesPer : Option Nat)
    (h1 : pages 1 ≠ []) (h0 : 0 < perKeyword)
    (hs : stopPaging pagesPer 2 = true) :
    (searchLoop pages perKeyword maxVideos pagesPer [] 1).2 = [1] := by
  have h0l : ([] : List SearchItem).length < perKeyword := by
    simp only [List.length_nil]
    omega
  rw [searchLoop, dif_pos h0l, dif_neg h1]
  dsimp only
  rw [if_pos hs]

/-- C7: _search_keyword pages from page 1 (the requested pages are always the
consecutive block 1, 2, ..., k), never returns more than the per-keyword
share, and stops at the first of: the share is met after a page (exactly one
page requested), the page-count ceiling is hit (exactly one page requested),
or the upstream returns an empty page - in particular a keyword whose second
page is empty requests exactly pages 1 and 2 even though the quota is
unmet. -/
theorem search_keyword_pagination (pages : Nat → List SearchItem)
    (perKeyword maxVideos : Nat) (pagesPer : Option Nat) :
    (search_keyword pages perKeyword maxVideos pagesPer).1.length ≤ perKeyword ∧
    (search_keyword pages perKeyword maxVideos pagesPer).2 =
      List.range' 1 (search_keyword pages perKeyword maxVideos pagesPer).2.length ∧
    (pages 1 ≠ [] → pages 2 = [] →
      (appendPageItems perKeyword maxVideos [] (pages 1)).length < perKeyword →
      stopPaging pagesPer 2 = false →
      (search_keyword pages perKeyword maxVideos pagesPer).2 = [1, 2]) ∧
    (pages 1 ≠ [] → 0 < perKeyword →
      perKeyword ≤ (appendPageItems perKeyword maxVideos [] (pages 1)).length →
      (search_keyword pages perKeyword maxVideos pagesPer).2 = [1]) ∧
    (pages 1 ≠ [] → 0 < perKeyword → stopPaging pagesPer 2 = true →
      (search_keyword pages perKeyword maxVideos pagesPer).2 = [1]) := by
  refine ⟨?_, ?_, ?_, ?_, ?_⟩
  · simp only [search_keyword]
    exact List.length_take_le perKeyword _
  · exact searchLoop_pages_consecutive pages perKeyword maxVideos pagesPer
      (perKeyword - 0) [] 1 rfl
  · intro h1 h2 hq hs
    exact searchLoop_second_page_empty pages perKeyword maxVideos pagesPer h1 h2 hq hs
  · intro h1 h0 hq
    exact searchLoop_share_met pages perKeyword maxVideos pagesPer h1 h0 hq
  · intro h1 h0 hs
    exact searchLoop_ceiling_hit pages perKeyword maxVideos pagesPer h1 h0 hs

/-- Pages oracle for the C7 witness: one result on page 1, nothing after. -/
def pagesC7 : Nat → List SearchItem :=
  fun p => if p = 1 then [⟨some "A"⟩] else []

/-- Witness for C7: per-keyword share 5 unmet after page 1, page 2 empty, no
ceiling; exactly pages 1 and 2 are requested and at most 5 results
returned. -/
theorem search_keyword_pagination_witness :
    (search_keyword pagesC7 5 100 none).1.length ≤ 5 ∧
      (search_keyword pagesC7 5 100 none).2 = [1, 2] := by
  have h := search_keyword_pagination pagesC7 5 100 none
  exact ⟨h.1, h.2.2.1 (by decide) rfl (by decide) rfl⟩

/-- State of the crawl's cooperative scheduler as far as the semaphore is
concerned: per-video units not yet started, units currently inside the
"async with self._semaphore" body of _bounded_collect_video_bundle (in
flight), and free semaphore permits. -/
structure SemState where
  pending : Nat
  running : Nat
  permits : Nat
deriving DecidableEq

/-- Initial state of one crawl run: n scheduled units, none in flight, the
semaphore created as asyncio.Semaphore(max(1, concurrent_requests)). -/
def semInit (numTasks : Nat) (concurrent_requests : Int) : SemState :=
  ⟨numTasks, 0, (max 1 concurrent_requests).toNat⟩

/-- Interleaving semantics of the semaphore: a pending unit may enter the
semaphore body only by consuming a permit (acquire), and a unit that finishes
its body releases its permit. These are the only transitions that touch the
shared counter. -/
inductive SemStep : SemState → SemState → Prop
  | acquire (s : SemState) (hp : 0 < s.pending) (hperm : 0 < s.permits) :
      SemStep s ⟨s.pending - 1, s.running + 1, s.permits - 1⟩
  | release (s : SemState) (hr : 0 < s.running) :
      SemStep s ⟨s.pending, s.running - 1, s.permits + 1⟩

theorem semStep_invariant (s s2 : SemState) (hstep : SemStep s s2) :
    s2.running + s2.permits = s.running + s.permits := by
  cases hstep with
  | acquire hp hperm => dsimp only; omega
  | release hr => dsimp only; omega

/-- C9: in every execution of crawl - any interleaving of unit starts and
completions from the initial state, for any number n of scheduled units - the
number of simultaneously in-flight per-video units never exceeds
max(1, concurrent_requests): the semaphore bounds whole units, and the
configured value is treated as at least 1. -/
theorem concurrency_ceiling (numTasks : Nat) (concurrent_requests : Int)
    (s : SemState)
    (hreach : Relation.ReflTransGen SemStep (semInit numTasks concurrent_requests) s) :
    s.running ≤ (max 1 concurrent_requests).toNat ∧
      1 ≤ (max 1 concurrent_requests).toNat := by
  have hsum : s.running + s.permits = (max 1 concurrent_requests).toNat := by
    induction hreach with
    | refl => simp [semInit]
    | tail h1 hstep ih => rw [semStep_invariant _ _ hstep]; exact ih
  refine ⟨by omega, ?_⟩
  have : (1 : Int) ≤ max 1 concurrent_requests := le_max_left 1 concurrent_requests
  omega

/-- Witness for C9: five units, limit 2; after two acquisitions the state
⟨3, 2, 0⟩ is reachable and its running count meets the bound. -/
theorem concurrency_ceiling_witness :
    (⟨3, 2, 0⟩ : SemState).running ≤ (max 1 (2 : Int)).toNat ∧
      1 ≤ (max 1 (2 : Int)).toNat := by
  have hstep1 : SemStep (semInit 5 2) ⟨4, 1, 1⟩ := by
    have h := SemStep.acquire (semInit 5 2) (by decide) (by decide)
    simpa [semInit] using h
  have hstep2 : SemStep (⟨4, 1, 1⟩ : SemState) ⟨3, 2, 0⟩ := by
    have h := SemStep.acquire (⟨4, 1, 1⟩ : SemState) (by decide) (by decide)
    simpa using h
  exact concurrency_ceiling 5 2 ⟨3, 2, 0⟩
    (Relation.ReflTransGen.tail (Relation.ReflTransGen.tail
      Relation.ReflTransGen.refl hstep1) hstep2)
